import Mathlib

/-!
Verification development for the 3D-houses repository (zone resolution and
raster pipeline).  The Python sources `src/lidar.py` and `src/house.py` are
shallowly embedded below:

* pure string/path manipulation (`HeightDataImage.filename`, `full_path`,
  `complement`, the `DHMVFile` filename regex) is translated directly;
* the filesystem is an explicit state (`FS`, a map from paths to file data)
  threaded through `download` / `ensure_local`;
* the network transport is a parameter (`Option` of the fetched archive,
  `none` modelling a failed HTTP status);
* the external geometric containment test of shapely/geopandas used by
  `get_zone` is a Boolean-valued parameter;
* raster cell values (floating point in the source) are modelled as `Int`:
  every claim below concerns structural behaviour (propagation, shapes,
  transforms), not rounding;
* Python exceptions become an error type `PyErr` with one constructor per
  raise site, named after the error kinds of the specification.
-/

/-- Decidable equality of `Except` values, used to evaluate the embedded
fallible operations on concrete inputs. -/
instance {ε α : Type} [DecidableEq ε] [DecidableEq α] : DecidableEq (Except ε α)
  | .ok a, .ok b =>
    if h : a = b then .isTrue (by rw [h])
    else .isFalse (by intro hh; cases hh; exact h rfl)
  | .error a, .error b =>
    if h : a = b then .isTrue (by rw [h])
    else .isFalse (by intro hh; cases hh; exact h rfl)
  | .ok _, .error _ => .isFalse (by intro hh; cases hh)
  | .error _, .ok _ => .isFalse (by intro hh; cases hh)

namespace ThreeDHouses

/-! Python `pathlib.PurePosixPath`, as far as the code uses it: a path is
parsed into components at construction time, dropping empty and `.`
components; `str` renders it back.  This models `Path(path)`, `str(path)`
and the `/` join operator of `lidar.py`. -/

/-- Components of a POSIX path split on the separator character. -/
def splitSlash : List Char → List (List Char)
  | [] => [[]]
  | c :: r =>
    if c = '/' then [] :: splitSlash r
    else
      match splitSlash r with
      | [] => [[c]]
      | h :: t => (c :: h) :: t

/-- Keep a path component: `pathlib` drops empty components and lone dots. -/
def goodComp (c : List Char) : Bool := decide (c ≠ [] ∧ c ≠ ['.'])

/-- The retained components of a path string. -/
def goodParts (s : List Char) : List (List Char) := (splitSlash s).filter goodComp

/-- A parsed path, the model of a `pathlib.Path` value. -/
structure PyPath where
  absolute : Bool
  parts : List (List Char)
deriving DecidableEq

/-- Parse a path string, the model of the `Path(...)` constructor. -/
def pathOfChars (s : List Char) : PyPath :=
  { absolute := decide (s.head? = some '/'), parts := goodParts s }

/-- Join components with the separator. -/
def joinSlash : List (List Char) → List Char
  | [] => []
  | [c] => c
  | c :: d :: r => c ++ '/' :: joinSlash (d :: r)

/-- Render a path back to a string, the model of `str(path)`. -/
def strOfPath (p : PyPath) : List Char :=
  match p.parts with
  | [] => if p.absolute then ['/'] else ['.']
  | ps => (if p.absolute then ['/'] else []) ++ joinSlash ps

/-- The `/` join of a path and a string name; an absolute right operand
resets the path, as in `pathlib`. -/
def joinPath (p : PyPath) (name : List Char) : PyPath :=
  if name.head? = some '/' then pathOfChars name
  else { absolute := p.absolute, parts := p.parts ++ goodParts name }

/-! The filesystem state threaded through `download` / `ensure_local`.  A
file is either raw bytes or a zip archive, which we keep in parsed form
(entry name to entry bytes) rather than serialised. -/

/-- Content of one file on disk. -/
inductive FileData
  | bytes (content : List Nat)
  | zipArchive (entries : List (String × List Nat))
deriving DecidableEq

/-- The filesystem: a partial map from paths to file contents. -/
def FS := PyPath → Option FileData

/-- The empty filesystem. -/
def fsEmpty : FS := fun _ => none

/-- Create or truncate-and-write a file. -/
def fsWrite (fs : FS) (p : PyPath) (d : FileData) : FS :=
  fun q => if q = p then some d else fs q

/-- Delete a file, the model of `os.remove`. -/
def fsRemove (fs : FS) (p : PyPath) : FS :=
  fun q => if q = p then none else fs q

/-- Existence check, the model of `Path.exists()`. -/
def fsExists (fs : FS) (p : PyPath) : Bool := (fs p).isSome

/-- Error kinds.  Each constructor models one raise site of the source,
named with the corresponding error kind of the specification:
`invalidConfiguration` is the `RuntimeWarning` raised by
`HeightDataImage.__init__` on a bad `data_type`; `runtimeError` is the
defensive `RuntimeError` in `HeightDataImage.complement`; `outOfBounds` is
the `IndexError` raised by `zone.iloc[0, 0]` in `get_zone` when no tile
contains the point; `fetchFailed` is a transport failure
(`raise_for_status`); `keyError` is the `KeyError` raised by `zipf.read`
when the archive lacks the expected entry; `broadcastError` is the numpy
`ValueError` on subtracting arrays of incompatible shapes. -/
inductive PyErr
  | invalidConfiguration
  | runtimeError
  | outOfBounds
  | fetchFailed
  | keyError
  | broadcastError
deriving DecidableEq

/-- Python `str.upper()`, applied characterwise. -/
def pyUpper (s : String) : String := (s.toList.map Char.toUpper).asString

/-! The zone lookup of `lidar.py` (`get_zone`, lines 189-204).  The
shapefile rows are a list of records (first column: the zone number,
geometry: the tile polygon); the shapely containment test is an external
collaborator and is therefore a parameter.  The source filters the rows by
containment and dereferences `iloc[0, 0]`, which raises an out-of-bounds
`IndexError` when the filtered frame is empty. -/

/-- One row of the Kaartbladversnijdingen shapefile. -/
structure KbvRecord (Poly : Type) where
  zoneNum : Nat
  geometry : Poly

/-- Model of `get_zone` (lidar.py lines 189-204): filter the tile rows by
containment of the query point, return the first column of the first
surviving row; an empty selection makes `iloc[0, 0]` fail out of bounds. -/
def get_zone {Poly P : Type} (contains : Poly → P → Bool)
    (kbv : List (KbvRecord Poly)) (pt : P) : Except PyErr Nat :=
  match kbv.filter (fun row => contains row.geometry pt) with
  | [] => .error .outOfBounds
  | row :: _ => .ok row.zoneNum

/-! The raster tile reference, `HeightDataImage` of `lidar.py`. -/

/-- A raster tile reference: the fields stored by
`HeightDataImage.__init__` after validation. -/
structure HeightDataImage where
  zone : Nat
  data_type : String
  res : String
  dhmv_version : String
  base_path : PyPath
deriving DecidableEq

/-- Python `f"{z:02d}"` for a natural number: decimal digits, left-padded
with a zero to width two. -/
def zone02 (z : Nat) : String :=
  if z < 10 then "0" ++ toString z else toString z

/-- Model of `HeightDataImage.__init__` (lidar.py lines 210-232): reject a
`data_type` whose upper-casing is neither DTM nor DSM (the source raises a
`RuntimeWarning`), otherwise store the upper-cased type and the parsed base
path. -/
def HeightDataImage.make (zone : Nat) (data_type : String) (resolution : String)
    (dhmv_version : String) (path : String) : Except PyErr HeightDataImage :=
  if pyUpper data_type ∉ (["DTM", "DSM"] : List String) then
    .error .invalidConfiguration
  else
    .ok { zone := zone, data_type := pyUpper data_type, res := resolution,
          dhmv_version := dhmv_version, base_path := pathOfChars path.toList }

/-- Model of `HeightDataImage.filename` (lidar.py lines 234-239): the
f-string `DHMV{version}{type}RAS{res}_k{zone:02d}{extension}`. -/
def HeightDataImage.filename (img : HeightDataImage) (extension : String) : String :=
  "DHMV" ++ img.dhmv_version ++ img.data_type ++ "RAS" ++ img.res ++ "_k"
    ++ zone02 img.zone ++ extension

/-- Model of `HeightDataImage.full_path` (lidar.py lines 241-243):
`base_path / filename(extension)`. -/
def HeightDataImage.full_path (img : HeightDataImage) (extension : String) : PyPath :=
  joinPath img.base_path (img.filename extension).toList

/-- Model of `HeightDataImage.is_downloaded` (lidar.py lines 249-251): the
tif file exists at the derived local path. -/
def HeightDataImage.is_downloaded (img : HeightDataImage) (fs : FS) : Bool :=
  fsExists fs (img.full_path ".tif")

/-- Model of `HeightDataImage.complement` (lidar.py lines 253-267): flip
DSM and DTM and build a fresh instance through the constructor, passing
`str(self.base_path)` as the path. -/
def HeightDataImage.complement (img : HeightDataImage) : Except PyErr HeightDataImage :=
  if img.data_type = "DSM" then
    HeightDataImage.make img.zone "DTM" img.res img.dhmv_version
      (strOfPath img.base_path).asString
  else if img.data_type = "DTM" then
    HeightDataImage.make img.zone "DSM" img.res img.dhmv_version
      (strOfPath img.base_path).asString
  else
    .error .runtimeError

/-- The zip entry read by `download`: `f"GeoTIFF/{self.filename()}"`. -/
def geoTiffEntryName (img : HeightDataImage) : String :=
  "GeoTIFF/" ++ img.filename ".tif"

/-- First matching entry of a zip archive, the lookup done by
`zipf.read(name)` (entry names in a zip created by AGIV are unique). -/
def lookupEntry : List (String × List Nat) → String → Option (List Nat)
  | [], _ => none
  | (n, b) :: r, k => if n = k then some b else lookupEntry r k

/-- Model of `HeightDataImage.download` (lidar.py lines 269-335).  The
transport collaborator is a parameter: `none` is a failed fetch (a raising
`raise_for_status`, which happens before any write to the final raster
path), `some entries` is the fetched archive written to the zip path.
Extraction follows the source exactly: `open(self.full_path(), "wb")`
creates/truncates the raster file at its final path first, then
`zipf.read` looks up the expected entry (raising `KeyError` when absent,
with the empty raster file already on disk), then the entry bytes are
written; finally, unless `keep_zip`, the zip is removed whenever the
raster file exists. -/
def HeightDataImage.download (img : HeightDataImage) (keep_zip : Bool) :
    Option (List (String × List Nat)) → FS → FS × Except PyErr Unit
  | none, fs => (fs, .error .fetchFailed)
  | some entries, fs =>
    let zipPath := img.full_path ".zip"
    let tifPath := img.full_path ".tif"
    let fs1 := fsWrite fs zipPath (.zipArchive entries)
    let fs2 := fsWrite fs1 tifPath (.bytes [])
    match lookupEntry entries (geoTiffEntryName img) with
    | none => (fs2, .error .keyError)
    | some tifBytes =>
      let fs3 := fsWrite fs2 tifPath (.bytes tifBytes)
      let fs4 := if !keep_zip && fsExists fs3 tifPath then fsRemove fs3 zipPath else fs3
      (fs4, .ok ())

/-- Model of the per-file ensure-local logic of `Building.__init__`
(lidar.py lines 357-365) with `auto_download=True`: if the raster file is
already present, nothing happens; otherwise `download()` runs once.  The
`Nat` component counts the network fetches performed by the call, and the
result carries the derived local path of the raster. -/
def ensure_local (img : HeightDataImage)
    (transport : Option (List (String × List Nat))) (fs : FS) :
    FS × Nat × Except PyErr PyPath :=
  if img.is_downloaded fs then (fs, 0, .ok (img.full_path ".tif"))
  else
    match img.download false transport fs with
    | (fs1, .ok _) => (fs1, 1, .ok (img.full_path ".tif"))
    | (fs1, .error e) => (fs1, 1, .error e)

/-! The combination step of `Building.load_data` (lidar.py lines 371-386).
The two `rasterio.mask.mask` calls produce a filled numpy array (pixels
outside the footprint hold the raster's no-data sentinel value) together
with an affine transform; the source keeps the terrain transform, discards
the surface transform (`... , _ = rasterio.mask.mask(...)`), and computes
`self.chm_data = self.dsm_data - self.dtm_data` with plain numpy
subtraction, which broadcasts. -/

/-- An affine transform as returned by rasterio; the code only stores and
forwards it, so the six coefficients are modelled as integers. -/
structure Affine where
  a : Int
  b : Int
  c : Int
  d : Int
  e : Int
  f : Int
deriving DecidableEq

/-- A masked raster: the filled pixel array plus its transform. -/
structure MaskedGrid where
  data : List (List Int)
  transform : Affine
deriving DecidableEq

/-- The result fields set by `load_data`: the canopy array and the single
retained transform. -/
structure CanopyResult where
  chm_data : List (List Int)
  shape_transform : Affine
deriving DecidableEq

/-- Number of rows of a 2-D array. -/
def rowsOf (g : List (List Int)) : Nat := g.length

/-- Number of columns of a 2-D array (length of the first row). -/
def colsOf (g : List (List Int)) : Nat := (g.headD []).length

/-- Cell access with the usual out-of-range default (only used in range). -/
def cellOf (g : List (List Int)) (i j : Nat) : Int := (g.getD i []).getD j 0

/-- Numpy broadcast compatibility of two dimension sizes. -/
def bcCompat (n m : Nat) : Bool := n == m || n == 1 || m == 1

/-- The broadcast output size of two compatible dimension sizes. -/
def bcDim (n m : Nat) : Nat := if n = 1 then m else n

/-- The source index along a dimension of size `n` for output index `i`. -/
def bcIdx (n i : Nat) : Nat := if n = 1 then 0 else i

/-- Numpy elementwise subtraction `a - b` of two 2-D arrays, with
broadcasting; incompatible shapes raise a `ValueError`. -/
def npSubtract (a b : List (List Int)) : Except PyErr (List (List Int)) :=
  if bcCompat (rowsOf a) (rowsOf b) && bcCompat (colsOf a) (colsOf b) then
    .ok ((List.range (bcDim (rowsOf a) (rowsOf b))).map fun i =>
      (List.range (bcDim (colsOf a) (colsOf b))).map fun j =>
        cellOf a (bcIdx (rowsOf a) i) (bcIdx (colsOf a) j)
          - cellOf b (bcIdx (rowsOf b) i) (bcIdx (colsOf b) j))
  else .error .broadcastError

/-- Model of the combination tail of `Building.load_data` (lidar.py lines
377-386): `chm_data = dsm_data - dtm_data`, with `shape_transform` taken
from the terrain mask call and the surface transform discarded.  No shape
or transform comparison occurs in the source. -/
def load_data_combine (dtm dsm : MaskedGrid) : Except PyErr CanopyResult :=
  match npSubtract dsm.data dtm.data with
  | .ok chm => .ok { chm_data := chm, shape_transform := dtm.transform }
  | .error e => .error e

/-! The filename parser of `house.py` (`DHMVFile.__init__`, lines 14-32):
`re.match` of the pattern
`DHMV(?P<version>[IVX]*?)(?P<type>DTM|DSM)RAS(?P<res>[0-9]+)m_k(?P<areacode>[0-9]{2}).tif`
against the base name, anchored at the start only.  The lazy version group
is implemented by trying the type alternatives first and extending the
version one `[IVX]` character at a time; the trailing `.` of the pattern is
an unescaped regex dot (any character but a newline). -/

/-- Fields recovered by `DHMVFile.__init__` from a conforming file name. -/
structure DHMVFields where
  dhmv_version : String
  data_type : String
  resolution : Nat
  area_code : Nat
deriving DecidableEq

/-- Match a literal at the head of the input, returning the remainder. -/
def stripLit : List Char → List Char → Option (List Char)
  | [], s => some s
  | _ :: _, [] => none
  | c :: l, d :: s => if d = c then stripLit l s else none

/-- Membership in the regex character class `[IVX]`. -/
def isRomanChar (c : Char) : Bool := c == 'I' || c == 'V' || c == 'X'

/-- Python `int` of a digit string, as applied to the regex groups. -/
def natOfDigits (ds : List Char) : Nat :=
  ds.foldl (fun n c => 10 * n + (c.toNat - '0'.toNat)) 0

/-- The part of the pattern after the type group:
`RAS(?P<res>[0-9]+)m_k(?P<areacode>[0-9]{2}).tif`, returning the numeric
resolution and area code.  `re.match` leaves trailing characters
unconstrained. -/
def parseTail (s : List Char) : Option (Nat × Nat) :=
  match stripLit "RAS".toList s with
  | none => none
  | some s1 =>
    let ds := s1.takeWhile Char.isDigit
    let s2 := s1.dropWhile Char.isDigit
    if ds = [] then none
    else
      match stripLit "m_k".toList s2 with
      | none => none
      | some s3 =>
        match s3 with
        | d1 :: d2 :: dot :: rest =>
          if d1.isDigit && d2.isDigit && !(dot == '\n') then
            match stripLit "tif".toList rest with
            | none => none
            | some _ => some (natOfDigits ds, natOfDigits [d1, d2])
          else none
        | _ => none

/-- Try the alternation `DTM|DSM` followed by the tail of the pattern at
the current position. -/
def tryTypeHere (s : List Char) : Option (String × Nat × Nat) :=
  match stripLit "DTM".toList s with
  | some r =>
    match parseTail r with
    | some p => some ("DTM", p)
    | none => none
  | none =>
    match stripLit "DSM".toList s with
    | some r =>
      match parseTail r with
      | some p => some ("DSM", p)
      | none => none
    | none => none

/-- The lazy `[IVX]*?` version group: attempt the rest of the pattern at
the current position first, then consume one more `[IVX]` character. -/
def parseVersionLoop (acc : List Char) : List Char → Option DHMVFields
  | [] =>
    match tryTypeHere [] with
    | some (ty, p) => some ⟨acc.asString, ty, p.1, p.2⟩
    | none => none
  | c :: r =>
    match tryTypeHere (c :: r) with
    | some (ty, p) => some ⟨acc.asString, ty, p.1, p.2⟩
    | none => if isRomanChar c then parseVersionLoop (acc ++ [c]) r else none

/-- Model of the `re.match` call of `DHMVFile.__init__` (house.py lines
21-32): `none` models the `RuntimeError` raised for a non-conforming name,
`some` carries the parsed and `int`-converted groups. -/
def DHMVFile.parseName (file_name : String) : Option DHMVFields :=
  match stripLit "DHMV".toList file_name.toList with
  | none => none
  | some s => parseVersionLoop [] s

/-- The canonical-name rule as the specification words it (concatenation
of version, layer-kind code, "RAS", resolution, "_k", the zero-padded
two-digit zone and the extension), for comparison with
`HeightDataImage.filename`. -/
def canonical_name_spec (img : HeightDataImage) (extension : String) : String :=
  img.dhmv_version ++ img.data_type ++ "RAS" ++ img.res ++ "_k"
    ++ zone02 img.zone ++ extension

/-! Concrete values used by witnesses and counterexamples. -/

/-- A transform used in concrete instances. -/
def affineA : Affine := ⟨1, 0, 0, 0, -1, 0⟩

/-- A second, different transform. -/
def affineB : Affine := ⟨2, 0, 5, 0, -2, 7⟩

/-- The tile reference of the repository's own unit tests:
`HeightDataImage(15, "DSM", resolution="5m")`. -/
def sampleDsm : HeightDataImage :=
  ⟨15, "DSM", "5m", "II", pathOfChars "./tiff_data".toList⟩

/-- The same reference with only the zone changed. -/
def sampleK33 : HeightDataImage :=
  ⟨33, "DSM", "5m", "II", pathOfChars "./tiff_data".toList⟩

/-- A reference whose version token is not made of roman numerals. -/
def sampleV2 : HeightDataImage :=
  ⟨15, "DSM", "1m", "2", pathOfChars "./tiff_data".toList⟩

/-- An archive holding exactly the entry `download` expects for
`sampleDsm`. -/
def sampleArchive : List (String × List Nat) :=
  [("GeoTIFF/DHMVIIDSMRAS5m_k15.tif", [1, 2, 3])]

/-- The filesystem state after a first successful fetch of `sampleDsm`
starting from an empty filesystem. -/
def fsAfterFetch : FS :=
  (ensure_local sampleDsm (some sampleArchive) fsEmpty).1

/-! Lemmas about the path model. -/

/-- Splitting always yields at least one component. -/
theorem splitSlash_ne_nil (s : List Char) : splitSlash s ≠ [] := by
  match s with
  | [] => simp [splitSlash]
  | c :: r =>
    rw [splitSlash]
    by_cases hc : c = '/'
    · simp [hc]
    · simp only [if_neg hc]
      cases h : splitSlash r with
      | nil => simp
      | cons a t => simp

/-- Components produced by splitting contain no separator. -/
theorem no_slash_of_mem_splitSlash (s : List Char) (c : List Char)
    (hc : c ∈ splitSlash s) : '/' ∉ c := by
  induction s generalizing c with
  | nil =>
    simp [splitSlash] at hc
    simp [hc]
  | cons a r ih =>
    rw [splitSlash] at hc
    by_cases ha : a = '/'
    · simp only [if_pos ha] at hc
      rcases List.mem_cons.mp hc with h | h
      · simp [h]
      · exact ih c h
    · simp only [if_neg ha] at hc
      cases hr : splitSlash r with
      | nil => exact absurd hr (splitSlash_ne_nil r)
      | cons h t =>
        rw [hr] at hc
        rcases List.mem_cons.mp hc with hce | hce
        · subst hce
          intro hmem
          rcases List.mem_cons.mp hmem with h1 | h1
          · exact ha h1.symm
          · exact ih h (hr ▸ List.mem_cons_self h t) h1
        · exact ih c (hr ▸ List.mem_cons.mpr (Or.inr hce))

/-- A separator-free string splits into itself. -/
theorem splitSlash_of_no_slash (c : List Char) (h : '/' ∉ c) : splitSlash c = [c] := by
  induction c with
  | nil => simp [splitSlash]
  | cons a r ih =>
    have ha : a ≠ '/' := fun he => h (he ▸ List.mem_cons_self a r)
    have hr : '/' ∉ r := fun hm => h (List.mem_cons_of_mem a hm)
    rw [splitSlash, if_neg ha, ih hr]

/-- Splitting a string of the form component-separator-rest. -/
theorem splitSlash_append_sep (c r : List Char) (h : '/' ∉ c) :
    splitSlash (c ++ '/' :: r) = c :: splitSlash r := by
  induction c with
  | nil => simp [splitSlash]
  | cons a cr ih =>
    have ha : a ≠ '/' := fun he => h (he ▸ List.mem_cons_self a cr)
    have hcr : '/' ∉ cr := fun hm => h (List.mem_cons_of_mem a hm)
    rw [List.cons_append, splitSlash, if_neg ha, ih hcr]

/-- Splitting after joining recovers the separator-free components. -/
theorem splitSlash_joinSlash (ps : List (List Char)) (h1 : ps ≠ [])
    (h2 : ∀ c ∈ ps, '/' ∉ c) : splitSlash (joinSlash ps) = ps := by
  induction ps with
  | nil => exact absurd rfl h1
  | cons c t ih =>
    cases t with
    | nil =>
      rw [joinSlash]
      exact splitSlash_of_no_slash c (h2 c (List.mem_cons_self c []))
    | cons d t2 =>
      rw [joinSlash, splitSlash_append_sep c _ (h2 c (List.mem_cons_self c (d :: t2)))]
      rw [ih (by simp) (fun e he => h2 e (List.mem_cons_of_mem c he))]

/-- A nonempty join starting from a nonempty first component is nonempty
and starts with the first component's head. -/
theorem joinSlash_head (h : List Char) (t : List (List Char)) (a : Char) (r : List Char)
    (hh : h = a :: r) : (joinSlash (h :: t)).head? = some a := by
  cases t with
  | nil => rw [joinSlash, hh]; rfl
  | cons d t2 => rw [joinSlash, hh]; rfl

/-- Retained components satisfy the retention predicate. -/
theorem goodParts_good (s : List Char) : ∀ c ∈ goodParts s, goodComp c = true := by
  intro c hc
  exact List.of_mem_filter hc

/-- Retained components contain no separator. -/
theorem goodParts_no_slash (s : List Char) : ∀ c ∈ goodParts s, '/' ∉ c := by
  intro c hc
  exact no_slash_of_mem_splitSlash s c (List.mem_of_mem_filter hc)

/-- Parsing the rendering of a path whose components are retained and
separator-free gives the path back. -/
theorem pathOfChars_strOfPath (p : PyPath)
    (hg : ∀ c ∈ p.parts, goodComp c = true) (hs : ∀ c ∈ p.parts, '/' ∉ c) :
    pathOfChars (strOfPath p) = p := by
  obtain ⟨abs, parts⟩ := p
  cases parts with
  | nil => cases abs <;> decide
  | cons h t =>
    have hgh : goodComp h = true := hg h (List.mem_cons_self h t)
    have hne : h ≠ [] := by
      intro he
      rw [he] at hgh
      simp [goodComp] at hgh
    obtain ⟨a, r, hh⟩ : ∃ a r, h = a :: r := by
      cases h with
      | nil => exact absurd rfl hne
      | cons a r => exact ⟨a, r, rfl⟩
    have hsplit : splitSlash (joinSlash (h :: t)) = h :: t :=
      splitSlash_joinSlash (h :: t) (by simp) hs
    have hfilter : (h :: t).filter goodComp = h :: t :=
      List.filter_eq_self.mpr hg
    have hheadJ : (joinSlash (h :: t)).head? = some a := joinSlash_head h t a r hh
    have hanos : a ≠ '/' := by
      intro he
      exact hs h (List.mem_cons_self h t) (by rw [hh, he]; exact List.mem_cons_self _ _)
    have hpartsRel : goodParts (joinSlash (h :: t)) = h :: t := by
      unfold goodParts
      rw [hsplit, hfilter]
    have hpartsAbs : goodParts ('/' :: joinSlash (h :: t)) = h :: t := by
      unfold goodParts
      rw [show ('/' : Char) :: joinSlash (h :: t) = [] ++ '/' :: joinSlash (h :: t) from rfl]
      rw [splitSlash_append_sep [] _ (by simp), List.filter_cons_of_neg]
      · rw [hsplit]
        exact hfilter
      · simp [goodComp]
    cases abs with
    | true =>
      have hstr : strOfPath ⟨true, h :: t⟩ = '/' :: joinSlash (h :: t) := by
        simp [strOfPath]
      rw [hstr]
      unfold pathOfChars
      simp [hpartsAbs]
    | false =>
      have hstr : strOfPath ⟨false, h :: t⟩ = joinSlash (h :: t) := by
        simp [strOfPath]
      rw [hstr]
      unfold pathOfChars
      simp [hpartsRel, hheadJ, hanos]

/-- Re-parsing the rendering of a parsed path is the identity; this is the
round trip `Path(str(Path(path)))` that `complement` composed with the
constructor performs on the base directory. -/
theorem pathOfChars_round (s : List Char) :
    pathOfChars (strOfPath (pathOfChars s)) = pathOfChars s :=
  pathOfChars_strOfPath (pathOfChars s) (goodParts_good s) (goodParts_no_slash s)

/-- Appending a separator-free suffix extends exactly the last component
of the split. -/
theorem splitSlash_append_right (s z : List Char) (hz : '/' ∉ z) :
    ∃ front lastc, splitSlash s = front ++ [lastc] ∧
      splitSlash (s ++ z) = front ++ [lastc ++ z] := by
  induction s with
  | nil =>
    refine ⟨[], [], by simp [splitSlash], ?_⟩
    simp [splitSlash_of_no_slash z hz]
  | cons c s ih =>
    obtain ⟨front, lastc, h1, h2⟩ := ih
    by_cases hc : c = '/'
    · subst hc
      refine ⟨[] :: front, lastc, ?_, ?_⟩
      · simp [splitSlash, h1]
      · simp [splitSlash, h2]
    · cases front with
      | nil =>
        refine ⟨[], c :: lastc, ?_, ?_⟩
        · simp only [List.nil_append] at h1
          simp [splitSlash, if_neg hc, h1]
        · simp only [List.nil_append] at h2
          simp [splitSlash, if_neg hc, h2]
      | cons f0 fr =>
        refine ⟨(c :: f0) :: fr, lastc, ?_, ?_⟩
        · simp [splitSlash, if_neg hc, h1]
        · simp [splitSlash, if_neg hc, h2]

/-- A component with a suffix at least two characters long is retained. -/
theorem goodComp_append (l z : List Char) (hz : 2 ≤ z.length) :
    goodComp (l ++ z) = true := by
  unfold goodComp
  apply decide_eq_true
  constructor
  · intro h
    have := congrArg List.length h
    simp only [List.length_append, List.length_nil] at this
    omega
  · intro h
    have := congrArg List.length h
    simp only [List.length_append, List.length_cons, List.length_nil] at this
    omega

/-- The file name always starts with the letter D of its DHMV prefix. -/
theorem filename_head (img : HeightDataImage) (ext : String) :
    (img.filename ext).toList.head? = some 'D' := by
  unfold HeightDataImage.filename
  have hD : ("DHMV" : String).data = ['D', 'H', 'M', 'V'] := rfl
  simp [String.toList, String.data_append, hD]

/-- The character list of a file name splits at the extension. -/
theorem filename_toList (img : HeightDataImage) (ext : String) :
    (img.filename ext).toList =
      ("DHMV" ++ img.dhmv_version ++ img.data_type ++ "RAS" ++ img.res ++ "_k"
        ++ zone02 img.zone).toList ++ ext.toList := by
  unfold HeightDataImage.filename
  exact String.data_append _ _

/-- A full path is the base path extended with the parsed file name; the
file name never starts with a separator, so the absolute-reset branch of
the join is dead. -/
theorem full_path_parts (img : HeightDataImage) (ext : String) :
    img.full_path ext =
      ⟨img.base_path.absolute,
       img.base_path.parts ++ goodParts (img.filename ext).toList⟩ := by
  unfold HeightDataImage.full_path joinPath
  rw [if_neg]
  rw [filename_head]
  simp

/-- The zip path and the raster path of a tile reference always differ. -/
theorem full_path_zip_ne_tif (img : HeightDataImage) :
    img.full_path ".zip" ≠ img.full_path ".tif" := by
  intro heq
  rw [full_path_parts, full_path_parts] at heq
  have hparts := congrArg PyPath.parts heq
  simp only at hparts
  have h2 : goodParts (img.filename ".zip").toList
      = goodParts (img.filename ".tif").toList :=
    List.append_cancel_left hparts
  rw [filename_toList, filename_toList] at h2
  have hzip : (".zip" : String).toList = ['.', 'z', 'i', 'p'] := rfl
  have htif : (".tif" : String).toList = ['.', 't', 'i', 'f'] := rfl
  rw [hzip, htif] at h2
  obtain ⟨f1, l1, hs1, hz1⟩ :=
    splitSlash_append_right ("DHMV" ++ img.dhmv_version ++ img.data_type ++ "RAS"
      ++ img.res ++ "_k" ++ zone02 img.zone).toList ['.', 'z', 'i', 'p'] (by decide)
  obtain ⟨f2, l2, hs2, hz2⟩ :=
    splitSlash_append_right ("DHMV" ++ img.dhmv_version ++ img.data_type ++ "RAS"
      ++ img.res ++ "_k" ++ zone02 img.zone).toList ['.', 't', 'i', 'f'] (by decide)
  obtain ⟨hf, hl⟩ := List.append_inj' (hs1.symm.trans hs2) rfl
  have hl12 : l1 = l2 := by
    injection hl
  unfold goodParts at h2
  rw [hz1, hz2, List.filter_append, List.filter_append] at h2
  have hg1 : goodComp (l1 ++ ['.', 'z', 'i', 'p']) = true :=
    goodComp_append l1 _ (by decide)
  have hg2 : goodComp (l2 ++ ['.', 't', 'i', 'f']) = true :=
    goodComp_append l2 _ (by decide)
  rw [List.filter_singleton] at h2
  rw [List.filter_singleton] at h2
  rw [hg1, hg2, hf, hl12] at h2
  simp only [cond_true] at h2
  have h3 := List.append_cancel_left h2
  have h4 : l2 ++ ['.', 'z', 'i', 'p'] = l2 ++ ['.', 't', 'i', 'f'] := by
    injection h3
  have h5 := List.append_cancel_left h4
  exact absurd h5 (by decide)

/-! Lemmas about the constructor and `complement`. -/

/-- What a successful construction guarantees about the stored fields. -/
theorem make_ok (zone : Nat) (dt resolution ver path : String) (r : HeightDataImage)
    (h : HeightDataImage.make zone dt resolution ver path = .ok r) :
    (r.data_type = "DTM" ∨ r.data_type = "DSM") ∧ r.zone = zone ∧
      r.res = resolution ∧ r.dhmv_version = ver ∧
      r.base_path = pathOfChars path.toList := by
  unfold HeightDataImage.make at h
  split at h
  · exact Except.noConfusion h
  · rename_i hcond
    injection h with h
    subst h
    refine ⟨?_, rfl, rfl, rfl, rfl⟩
    have hmem : pyUpper dt ∈ (["DTM", "DSM"] : List String) := not_not.mp hcond
    simpa using hmem

/-- Flipping a surface reference produces the terrain reference with the
re-parsed base directory. -/
theorem complement_of_dsm (r : HeightDataImage) (h : r.data_type = "DSM") :
    r.complement = .ok ⟨r.zone, "DTM", r.res, r.dhmv_version,
      pathOfChars (strOfPath r.base_path)⟩ := by
  unfold HeightDataImage.complement
  rw [if_pos h]
  unfold HeightDataImage.make
  rw [if_neg (by decide)]
  have h1 : pyUpper "DTM" = "DTM" := by decide
  have h2 : ((strOfPath r.base_path).asString).toList = strOfPath r.base_path := rfl
  rw [h1, h2]

/-- Flipping a terrain reference produces the surface reference with the
re-parsed base directory. -/
theorem complement_of_dtm (r : HeightDataImage) (h : r.data_type = "DTM") :
    r.complement = .ok ⟨r.zone, "DSM", r.res, r.dhmv_version,
      pathOfChars (strOfPath r.base_path)⟩ := by
  unfold HeightDataImage.complement
  rw [if_neg (by rw [h]; decide), if_pos h]
  unfold HeightDataImage.make
  rw [if_neg (by decide)]
  have h1 : pyUpper "DSM" = "DSM" := by decide
  have h2 : ((strOfPath r.base_path).asString).toList = strOfPath r.base_path := rfl
  rw [h1, h2]

/-- C7.  For every validly constructed raster tile ref, applying
complement twice yields a ref equal to the original in every field (zone,
layer kind, resolution, version, base directory). -/
theorem c7_complement_involution (zone : Nat) (dt resolution ver path : String)
    (r : HeightDataImage)
    (h : HeightDataImage.make zone dt resolution ver path = .ok r) :
    r.complement.bind HeightDataImage.complement = .ok r := by
  obtain ⟨hdt, hz, hres, hver, hbp⟩ := make_ok zone dt resolution ver path r h
  have hround : pathOfChars (strOfPath r.base_path) = r.base_path := by
    rw [hbp]
    exact pathOfChars_round path.toList
  obtain ⟨z0, dt0, res0, ver0, bp0⟩ := r
  simp only at hdt hround
  rcases hdt with h1 | h1
  · subst h1
    rw [complement_of_dtm ⟨z0, "DTM", res0, ver0, bp0⟩ rfl]
    simp only [hround, Except.bind]
    rw [complement_of_dsm ⟨z0, "DSM", res0, ver0, bp0⟩ rfl]
    simp only [hround]
  · subst h1
    rw [complement_of_dsm ⟨z0, "DSM", res0, ver0, bp0⟩ rfl]
    simp only [hround, Except.bind]
    rw [complement_of_dtm ⟨z0, "DTM", res0, ver0, bp0⟩ rfl]
    simp only [hround]

/-- Witness for C7 at the repository's own test reference. -/
theorem c7_witness :
    sampleDsm.complement.bind HeightDataImage.complement = .ok sampleDsm :=
  c7_complement_involution 15 "dsm" "5m" "II" "./tiff_data" sampleDsm (by decide)

/-- C3.  For every point lying strictly inside exactly one zone tile (the
containment test singles out exactly one record), the lookup returns that
tile's number: the filter retains exactly that record and the first-row
access yields its first column. -/
theorem c3_get_zone_unique {Poly P : Type} (contains : Poly → P → Bool)
    (kbv : List (KbvRecord Poly)) (pt : P) (row : KbvRecord Poly)
    (hmem : row ∈ kbv) (hcont : contains row.geometry pt = true)
    (huniq : ∀ q ∈ kbv, contains q.geometry pt = true → q = row) :
    get_zone contains kbv pt = .ok row.zoneNum := by
  unfold get_zone
  cases hfil : kbv.filter (fun q => contains q.geometry pt) with
  | nil =>
    have hin : row ∈ kbv.filter (fun q => contains q.geometry pt) :=
      List.mem_filter.mpr ⟨hmem, hcont⟩
    rw [hfil] at hin
    cases hin
  | cons q rest =>
    have hq : q ∈ kbv.filter (fun q => contains q.geometry pt) := by
      rw [hfil]
      exact List.mem_cons_self q rest
    have hq2 := List.mem_filter.mp hq
    have hqr : q = row := huniq q hq2.1 hq2.2
    show Except.ok q.zoneNum = Except.ok row.zoneNum
    rw [hqr]

/-- Witness for C3: a one-tile partition containing the query point. -/
theorem c3_witness :
    get_zone (fun (_ : Unit) (_ : Unit) => true) [⟨7, ()⟩] () = .ok 7 :=
  c3_get_zone_unique (fun _ _ => true) [⟨7, ()⟩] () ⟨7, ()⟩
    (List.mem_singleton.mpr rfl) rfl
    (fun _ hq _ => List.mem_singleton.mp hq)

/-- C4.  For every point contained in no zone tile, the lookup fails with
the out-of-bounds error kind (the `IndexError` of the first-row access on
an empty selection) rather than returning a zone number. -/
theorem c4_get_zone_out_of_bounds {Poly P : Type} (contains : Poly → P → Bool)
    (kbv : List (KbvRecord Poly)) (pt : P)
    (h : ∀ q ∈ kbv, contains q.geometry pt = false) :
    get_zone contains kbv pt = .error .outOfBounds := by
  unfold get_zone
  have hfil : kbv.filter (fun q => contains q.geometry pt) = [] := by
    rw [List.filter_eq_nil_iff]
    intro q hq
    simp [h q hq]
  rw [hfil]

/-- Witness for C4: a one-tile partition missing the query point. -/
theorem c4_witness :
    get_zone (fun (_ : Unit) (_ : Unit) => false) [⟨7, ()⟩] () = .error .outOfBounds :=
  c4_get_zone_out_of_bounds (fun _ _ => false) [⟨7, ()⟩] () (fun _ _ => rfl)

/-- C9.  Construction with a layer kind that is neither DTM nor DSM (after
upper-casing) fails with the invalid-configuration error kind, and every
successfully constructed ref carries layer kind DTM or DSM. -/
theorem c9_make_invalid_layer_kind (zone : Nat) (dt resolution ver path : String) :
    (pyUpper dt ∉ (["DTM", "DSM"] : List String) →
      HeightDataImage.make zone dt resolution ver path = .error .invalidConfiguration) ∧
    ∀ r, HeightDataImage.make zone dt resolution ver path = .ok r →
      r.data_type = "DTM" ∨ r.data_type = "DSM" := by
  constructor
  · intro h
    unfold HeightDataImage.make
    rw [if_pos h]
  · intro r h
    exact (make_ok zone dt resolution ver path r h).1

/-- Witness for C9 at a concrete invalid layer kind. -/
theorem c9_witness :
    HeightDataImage.make 15 "XYZ" "1m" "II" "./tiff_data" = .error .invalidConfiguration :=
  (c9_make_invalid_layer_kind 15 "XYZ" "1m" "II" "./tiff_data").1 (by decide)

/-- C8 counterexample: the generated file name starts with the literal
DHMV prefix, so it differs from the specification's concatenation of the
bare fields (version, layer-kind code, RAS, resolution, _k, zone,
extension) already on the repository's own test reference. -/
theorem c8_counterexample :
    HeightDataImage.make 15 "DSM" "5m" "II" "./tiff_data" = .ok sampleDsm ∧
    sampleDsm.filename ".tif" ≠ canonical_name_spec sampleDsm ".tif" :=
  ⟨by decide, by decide⟩

/-- C8 as amended.  The canonical file name is the literal DHMV prefix
followed by version, layer-kind code, RAS, resolution, _k, the zero-padded
zone and the extension; it is a pure function of the fields, and two refs
equal except for the zone produce names that differ only in the zone
segment. -/
theorem c8_filename_segments (r s : HeightDataImage) (ext : String)
    (hv : r.dhmv_version = s.dhmv_version) (hd : r.data_type = s.data_type)
    (hres : r.res = s.res) :
    r.filename ext =
      ("DHMV" ++ r.dhmv_version ++ r.data_type ++ "RAS" ++ r.res ++ "_k")
        ++ zone02 r.zone ++ ext ∧
    s.filename ext =
      ("DHMV" ++ r.dhmv_version ++ r.data_type ++ "RAS" ++ r.res ++ "_k")
        ++ zone02 s.zone ++ ext := by
  constructor
  · rfl
  · rw [hv, hd, hres]
    rfl

/-- Witness for C8 at two refs differing only in the zone. -/
theorem c8_witness :
    sampleDsm.filename ".tif" =
      ("DHMV" ++ sampleDsm.dhmv_version ++ sampleDsm.data_type ++ "RAS"
        ++ sampleDsm.res ++ "_k") ++ zone02 sampleDsm.zone ++ ".tif" ∧
    sampleK33.filename ".tif" =
      ("DHMV" ++ sampleDsm.dhmv_version ++ sampleDsm.data_type ++ "RAS"
        ++ sampleDsm.res ++ "_k") ++ zone02 sampleK33.zone ++ ".tif" :=
  c8_filename_segments sampleDsm sampleK33 ".tif" rfl rfl rfl

/-! The combination step (claims C1 and C2). -/

/-- C1 counterexample: with equal shapes but different transforms the
combination succeeds and produces a canopy grid carrying the terrain
transform, and with different but broadcast-compatible shapes it also
succeeds; it never fails with a shape-mismatch error. -/
theorem c1_counterexample :
    load_data_combine ⟨[[5]], affineA⟩ ⟨[[12]], affineB⟩ = .ok ⟨[[7]], affineA⟩ ∧
    affineA ≠ affineB ∧
    load_data_combine ⟨[[5]], affineA⟩ ⟨[[1], [2]], affineA⟩
      = .ok ⟨[[-4], [-3]], affineA⟩ ∧
    rowsOf [[(5 : Int)]] ≠ rowsOf [[(1 : Int)], [(2 : Int)]] :=
  ⟨by decide, by decide, by decide, by decide⟩

/-- C1 as amended.  The combine step performs no shape or transform
validation of its own: the two transforms are never compared (the output
always carries the terrain transform and the surface transform is
discarded), and the data arrays are subtracted with numpy broadcasting, so
the step succeeds exactly when the shapes are broadcast-compatible —
regardless of the transforms — and otherwise fails with a broadcast error,
not a shape-mismatch error. -/
theorem c1_combine_no_validation (dtm dsm : MaskedGrid) :
    ((load_data_combine dtm dsm).isOk =
      (bcCompat (rowsOf dsm.data) (rowsOf dtm.data)
        && bcCompat (colsOf dsm.data) (colsOf dtm.data))) ∧
    (∀ c, load_data_combine dtm dsm = .ok c → c.shape_transform = dtm.transform) ∧
    (¬ (bcCompat (rowsOf dsm.data) (rowsOf dtm.data)
        && bcCompat (colsOf dsm.data) (colsOf dtm.data)) = true →
      load_data_combine dtm dsm = .error .broadcastError) := by
  unfold load_data_combine npSubtract
  by_cases hc : (bcCompat (rowsOf dsm.data) (rowsOf dtm.data)
      && bcCompat (colsOf dsm.data) (colsOf dtm.data)) = true
  · rw [if_pos hc]
    refine ⟨by rw [hc]; rfl, ?_, fun hn => absurd hc hn⟩
    intro c h
    injection h with h
    subst h
    rfl
  · rw [if_neg hc]
    refine ⟨?_, ?_, fun _ => rfl⟩
    · rw [Bool.not_eq_true] at hc
      rw [hc]
      rfl
    · intro c h
      exact Except.noConfusion h

/-- Witness for C1: the transform of the combined grid at a concrete pair
with differing transforms is the terrain transform. -/
theorem c1_witness :
    (⟨[[7]], affineA⟩ : CanopyResult).shape_transform = affineA :=
  (c1_combine_no_validation ⟨[[5]], affineA⟩ ⟨[[12]], affineB⟩).2.1
    ⟨[[7]], affineA⟩ (by decide)

/-- C2 counterexample: a cell carrying the no-data sentinel (here -9999,
the usual DHMV GeoTIFF no-data value) in both inputs combines to 0, which
is not the sentinel — no-data does not propagate; the sentinel enters the
subtraction as its numeric value. -/
theorem c2_counterexample :
    load_data_combine ⟨[[-9999]], affineA⟩ ⟨[[-9999]], affineA⟩
      = .ok ⟨[[0]], affineA⟩ ∧
    (0 : Int) ≠ -9999 :=
  ⟨by decide, by decide⟩

/-- Index clipping disappears inside the bounds. -/
theorem bcIdx_lt (n i : Nat) (h : i < n) : bcIdx n i = i := by
  unfold bcIdx
  split
  · rename_i h1
    omega
  · rfl

/-- Reading a cell of a range-built grid. -/
theorem getD_range_map {α : Type} (n i : Nat) (f : Nat → α) (d : α) (h : i < n) :
    ((List.range n).map f).getD i d = f i := by
  rw [List.getD_eq_getElem?_getD, List.getElem?_map, List.getElem?_range h]
  rfl

/-- C2 as amended.  For shape-aligned inputs the combination is plain
elementwise subtraction: every output cell, including those holding the
no-data sentinel in either input, is the numeric difference of the two
input cells — the sentinel is used as its numeric value, so no-data cells
do not propagate to no-data in the output. -/
theorem c2_elementwise_subtraction (dtm dsm : MaskedGrid) (i j : Nat)
    (hr : rowsOf dtm.data = rowsOf dsm.data) (hc : colsOf dtm.data = colsOf dsm.data)
    (hi : i < rowsOf dsm.data) (hj : j < colsOf dsm.data) :
    (load_data_combine dtm dsm).isOk = true ∧
    ∀ c, load_data_combine dtm dsm = .ok c →
      cellOf c.chm_data i j = cellOf dsm.data i j - cellOf dtm.data i j := by
  have h1 : bcCompat (rowsOf dsm.data) (rowsOf dtm.data) = true := by
    rw [hr]
    simp [bcCompat]
  have h2 : bcCompat (colsOf dsm.data) (colsOf dtm.data) = true := by
    rw [hc]
    simp [bcCompat]
  have hcond : (bcCompat (rowsOf dsm.data) (rowsOf dtm.data)
      && bcCompat (colsOf dsm.data) (colsOf dtm.data)) = true := by
    rw [h1, h2]
    rfl
  have hbd : bcDim (rowsOf dsm.data) (rowsOf dtm.data) = rowsOf dsm.data := by
    unfold bcDim
    rw [hr]
    exact ite_self _
  have hbc : bcDim (colsOf dsm.data) (colsOf dtm.data) = colsOf dsm.data := by
    unfold bcDim
    rw [hc]
    exact ite_self _
  unfold load_data_combine npSubtract
  rw [if_pos hcond]
  refine ⟨rfl, ?_⟩
  intro c h
  injection h with h
  subst h
  show cellOf ((List.range (bcDim (rowsOf dsm.data) (rowsOf dtm.data))).map _) i j = _
  unfold cellOf
  rw [hbd, hbc, getD_range_map _ _ _ _ hi, getD_range_map _ _ _ _ hj]
  rw [bcIdx_lt _ _ hi, bcIdx_lt _ _ hj]
  rw [show bcIdx (rowsOf dtm.data) i = i from hr ▸ bcIdx_lt _ _ (hr ▸ hi)]
  rw [show bcIdx (colsOf dtm.data) j = j from hc ▸ bcIdx_lt _ _ (hc ▸ hj)]

/-- Witness for C2 at a pair with a sentinel cell in the terrain input. -/
theorem c2_witness :
    cellOf [[(10001 : Int)]] 0 0 = cellOf [[(2 : Int)]] 0 0 - cellOf [[(-9999 : Int)]] 0 0 :=
  (c2_elementwise_subtraction ⟨[[-9999]], affineA⟩ ⟨[[2]], affineA⟩ 0 0
    rfl rfl (by decide) (by decide)).2 ⟨[[10001]], affineA⟩ (by decide)

/-! The fetch step (claims C5 and C6). -/

/-- C5 counterexample: downloading the repository's own test tile from an
archive that lacks the expected entry fails, yet afterwards an empty file
sits at the final raster path and the tile reports as downloaded. -/
theorem c5_counterexample :
    (sampleDsm.download false (some []) fsEmpty).2 = .error .keyError ∧
    (sampleDsm.download false (some []) fsEmpty).1 (sampleDsm.full_path ".tif")
      = some (.bytes []) ∧
    sampleDsm.is_downloaded (sampleDsm.download false (some []) fsEmpty).1 = true :=
  ⟨by decide, by decide, by decide⟩

/-- C5 as amended.  A failed fetch can leave a file at the final raster
path: extraction opens the final path for writing before reading the
archive entry, so when the archive lacks the expected entry the step fails
with the key-error kind while an empty file remains at the final path and
`is_downloaded` reports the tile as present.  (A transport failure before
extraction leaves the filesystem unchanged.)  No temporary-name-then-
rename step exists. -/
theorem c5_failed_fetch_leaves_file (img : HeightDataImage) (fs : FS)
    (entries : List (String × List Nat))
    (hmiss : lookupEntry entries (geoTiffEntryName img) = none) :
    (img.download false (some entries) fs).2 = .error .keyError ∧
    (img.download false (some entries) fs).1 (img.full_path ".tif")
      = some (.bytes []) ∧
    img.is_downloaded (img.download false (some entries) fs).1 = true ∧
    ∀ kz, img.download kz none fs = (fs, .error .fetchFailed) := by
  have hstep : img.download false (some entries) fs =
      (fsWrite (fsWrite fs (img.full_path ".zip") (.zipArchive entries))
        (img.full_path ".tif") (.bytes []), .error .keyError) := by
    simp only [HeightDataImage.download, hmiss]
  rw [hstep]
  refine ⟨rfl, ?_, ?_, fun kz => rfl⟩
  · simp [fsWrite]
  · simp [HeightDataImage.is_downloaded, fsExists, fsWrite]

/-- Witness for C5 at the concrete test tile and the empty archive. -/
theorem c5_witness :
    (sampleDsm.download false (some []) fsEmpty).2 = .error .keyError ∧
    sampleDsm.download true none fsEmpty = (fsEmpty, .error .fetchFailed) := by
  have h := c5_failed_fetch_leaves_file sampleDsm fsEmpty [] rfl
  exact ⟨h.1, h.2.2.2 true⟩

/-- A successful download leaves the raster file at its final path. -/
theorem download_ok_is_downloaded (img : HeightDataImage) (keep_zip : Bool)
    (transport : Option (List (String × List Nat))) (fs fs1 : FS) (u : Unit)
    (h : img.download keep_zip transport fs = (fs1, .ok u)) :
    img.is_downloaded fs1 = true := by
  cases transport with
  | none =>
    simp only [HeightDataImage.download] at h
    injection h with h1 h2
    exact Except.noConfusion h2
  | some entries =>
    cases hle : lookupEntry entries (geoTiffEntryName img) with
    | none =>
      simp only [HeightDataImage.download, hle] at h
      injection h with h1 h2
      exact Except.noConfusion h2
    | some tifBytes =>
      simp only [HeightDataImage.download, hle] at h
      injection h with h1 h2
      subst h1
      unfold HeightDataImage.is_downloaded fsExists
      split
      · unfold fsRemove
        rw [if_neg (Ne.symm (full_path_zip_ne_tif img))]
        simp [fsWrite]
      · simp [fsWrite]

/-- C6.  Ensuring local availability returns immediately without fetching
when the raster file is already present, and after any successful call a
second call performs no network fetch and returns the same path unchanged;
hence two successive calls fetch at most once. -/
theorem c6_ensure_local_idempotent (img : HeightDataImage)
    (transport : Option (List (String × List Nat))) (fs : FS) :
    (img.is_downloaded fs = true →
      ensure_local img transport fs = (fs, 0, .ok (img.full_path ".tif"))) ∧
    ∀ fs1 n1 p, ensure_local img transport fs = (fs1, n1, .ok p) →
      n1 ≤ 1 ∧ ensure_local img transport fs1 = (fs1, 0, .ok p) := by
  constructor
  · intro h
    unfold ensure_local
    rw [if_pos h]
  · intro fs1 n1 p h
    unfold ensure_local at h
    by_cases hd : img.is_downloaded fs = true
    · rw [if_pos hd] at h
      injection h with ha hb
      injection hb with hb1 hb2
      injection hb2 with hb3
      subst ha hb1 hb3
      refine ⟨by omega, ?_⟩
      unfold ensure_local
      rw [if_pos hd]
    · rw [if_neg hd] at h
      cases hdl : img.download false transport fs with
      | mk dfs dres =>
        rw [hdl] at h
        cases dres with
        | ok u =>
          injection h with ha hb
          injection hb with hb1 hb2
          injection hb2 with hb3
          subst ha hb1 hb3
          have hdown := download_ok_is_downloaded img false transport fs dfs u hdl
          refine ⟨by omega, ?_⟩
          unfold ensure_local
          rw [if_pos hdown]
        | error e =>
          injection h with ha hb
          injection hb with hb1 hb2
          exact Except.noConfusion hb2

/-- Witness for C6: the second call after a successful fetch of the test
tile is a no-op returning the same path. -/
theorem c6_witness :
    ensure_local sampleDsm (some sampleArchive) fsAfterFetch
      = (fsAfterFetch, 0, .ok (sampleDsm.full_path ".tif")) :=
  ((c6_ensure_local_idempotent sampleDsm (some sampleArchive) fsEmpty).2
    fsAfterFetch 1 (sampleDsm.full_path ".tif") rfl).2

/-! Name generation versus name parsing (claim C10). -/

/-- Character list of a string concatenation. -/
theorem strToList_append (a b : String) : (a ++ b).toList = a.toList ++ b.toList :=
  String.data_append a b

/-- Matching a literal against itself followed by a remainder. -/
theorem stripLit_append (lit rest : List Char) :
    stripLit lit (lit ++ rest) = some rest := by
  induction lit with
  | nil => rfl
  | cons c l ih =>
    rw [List.cons_append]
    unfold stripLit
    rw [if_pos rfl, ih]

/-- Splitting a run of satisfying characters before a failing one. -/
theorem takeWhile_app {p : Char → Bool} (l : List Char)
    (hl : ∀ c ∈ l, p c = true) (c0 : Char) (hc : p c0 = false) (r : List Char) :
    (l ++ c0 :: r).takeWhile p = l ∧ (l ++ c0 :: r).dropWhile p = c0 :: r := by
  induction l with
  | nil =>
    rw [List.nil_append]
    exact ⟨List.takeWhile_cons_of_neg (by simp [hc]),
           List.dropWhile_cons_of_neg (by simp [hc])⟩
  | cons a l ih =>
    have ha : p a = true := hl a (List.mem_cons_self a l)
    have hl2 : ∀ c ∈ l, p c = true := fun c hcm => hl c (List.mem_cons_of_mem a hcm)
    obtain ⟨ih1, ih2⟩ := ih hl2
    rw [List.cons_append]
    refine ⟨?_, ?_⟩
    · rw [List.takeWhile_cons_of_pos (by simp [ha]), ih1]
    · rw [List.dropWhile_cons_of_pos (by simp [ha]), ih2]

/-- The tail of the pattern accepts a digit run, the literal connective,
two digit characters, the unescaped dot and the tif suffix. -/
theorem parseTail_eq (ds : List Char) (hne : ds ≠ [])
    (hdig : ∀ c ∈ ds, c.isDigit = true) (d1 d2 : Char)
    (h1 : d1.isDigit = true) (h2 : d2.isDigit = true) :
    parseTail ("RAS".toList ++ (ds
      ++ 'm' :: '_' :: 'k' :: d1 :: d2 :: '.' :: 't' :: 'i' :: 'f' :: [])) =
      some (natOfDigits ds, natOfDigits [d1, d2]) := by
  obtain ⟨htake, hdrop⟩ := takeWhile_app (p := Char.isDigit) ds hdig 'm' (by decide)
    ('_' :: 'k' :: d1 :: d2 :: '.' :: 't' :: 'i' :: 'f' :: [])
  unfold parseTail
  rw [stripLit_append]
  simp only [htake, hdrop]
  rw [if_neg hne]
  rw [show stripLit "m_k".toList
      ('m' :: '_' :: 'k' :: d1 :: d2 :: '.' :: 't' :: 'i' :: 'f' :: [])
      = some (d1 :: d2 :: '.' :: 't' :: 'i' :: 'f' :: []) from stripLit_append _ _]
  simp only [h1, h2]
  rw [show stripLit "tif".toList ['t', 'i', 'f'] = some [] from stripLit_append _ []]
  simp

/-- The type alternation succeeds at the type position when the rest of
the pattern matches. -/
theorem tryTypeHere_at_type (dtU : String) (hdtU : dtU = "DTM" ∨ dtU = "DSM")
    (tail : List Char) (res area : Nat) (htail : parseTail tail = some (res, area)) :
    tryTypeHere (dtU.toList ++ tail) = some (dtU, res, area) := by
  rcases hdtU with h | h
  · subst h
    unfold tryTypeHere
    rw [stripLit_append]
    show (match parseTail tail with
      | some p => some ("DTM", p)
      | none => none) = some ("DTM", res, area)
    rw [htail]
  · subst h
    have hn : stripLit "DTM".toList ("DSM".toList ++ tail) = none := by
      show stripLit ('D' :: 'T' :: 'M' :: []) ('D' :: 'S' :: 'M' :: tail) = none
      unfold stripLit
      rw [if_pos rfl]
      unfold stripLit
      rw [if_neg (by decide)]
    unfold tryTypeHere
    rw [hn, stripLit_append]
    show (match parseTail tail with
      | some p => some ("DSM", p)
      | none => none) = some ("DSM", res, area)
    rw [htail]

/-- The type alternation fails on a version character: such a character is
never the letter D that both alternatives start with. -/
theorem tryTypeHere_roman_cons (c : Char) (s : List Char)
    (hc : isRomanChar c = true) : tryTypeHere (c :: s) = none := by
  have hcd : c ≠ 'D' := by
    have hor : (c = 'I' ∨ c = 'V') ∨ c = 'X' := by
      simpa [isRomanChar] using hc
    rcases hor with (h | h) | h <;> (subst h; decide)
  have h1 : stripLit "DTM".toList (c :: s) = none := by
    show stripLit ('D' :: 'T' :: 'M' :: []) (c :: s) = none
    unfold stripLit
    rw [if_neg hcd]
  have h2 : stripLit "DSM".toList (c :: s) = none := by
    show stripLit ('D' :: 'S' :: 'M' :: []) (c :: s) = none
    unfold stripLit
    rw [if_neg hcd]
  unfold tryTypeHere
  rw [h1, h2]

/-- The lazy version group consumes exactly a run of version characters
whenever the rest of the pattern matches right after it. -/
theorem parseVersionLoop_append (verL : List Char)
    (hv : ∀ c ∈ verL, isRomanChar c = true) (s : List Char) (ty : String)
    (p : Nat × Nat) (hs : tryTypeHere s = some (ty, p)) :
    ∀ acc, parseVersionLoop acc (verL ++ s)
      = some ⟨(acc ++ verL).asString, ty, p.1, p.2⟩ := by
  induction verL with
  | nil =>
    intro acc
    rw [List.nil_append]
    cases s with
    | nil =>
      rw [show tryTypeHere [] = none from rfl] at hs
      exact Option.noConfusion hs
    | cons c0 s0 =>
      unfold parseVersionLoop
      rw [hs]
      simp
  | cons c rest ih =>
    intro acc
    have hc : isRomanChar c = true := hv c (List.mem_cons_self _ _)
    have hnone := tryTypeHere_roman_cons c (rest ++ s) hc
    rw [List.cons_append]
    unfold parseVersionLoop
    rw [hnone]
    simp only [hc, if_true]
    rw [ih (fun d hd => hv d (List.mem_cons_of_mem _ hd)) (acc ++ [c])]
    simp

/-- Decimal formatting of a zone below one hundred: two digit characters
recovering the zone value. -/
theorem zone02_spec : ∀ z : Nat, z < 100 →
    (zone02 z).toList = [Nat.digitChar (z / 10), Nat.digitChar (z % 10)]
    ∧ (Nat.digitChar (z / 10)).isDigit = true
    ∧ (Nat.digitChar (z % 10)).isDigit = true
    ∧ natOfDigits [Nat.digitChar (z / 10), Nat.digitChar (z % 10)] = z := by
  decide

/-- C10 as amended.  For every validly constructed ref whose version token
consists of the roman-numeral characters I, V, X, whose resolution token
is a nonempty digit run followed by the letter m, and whose zone is below
one hundred, the generated file name matches the DHMVFile pattern and
parsing recovers the version, the layer kind, the numeric resolution and
the zone. -/
theorem c10_roundtrip (zone : Nat) (dt ver path : String) (ds : List Char)
    (r : HeightDataImage)
    (hmk : HeightDataImage.make zone dt (ds.asString ++ "m") ver path = .ok r)
    (hv : ∀ c ∈ ver.toList, isRomanChar c = true)
    (hne : ds ≠ []) (hdig : ∀ c ∈ ds, c.isDigit = true)
    (hz : zone < 100) :
    DHMVFile.parseName (r.filename ".tif")
      = some ⟨ver, r.data_type, natOfDigits ds, zone⟩ := by
  obtain ⟨hdt, hzz, hres, hver, hbp⟩ := make_ok _ _ _ _ _ _ hmk
  obtain ⟨hzd, hdA, hdB, hzval⟩ := zone02_spec zone hz
  have hasL : (ds.asString).toList = ds := rfl
  have hmL : ("m" : String).toList = ['m'] := rfl
  have hkL : ("_k" : String).toList = ['_', 'k'] := rfl
  have htifL : (".tif" : String).toList = ['.', 't', 'i', 'f'] := rfl
  have hflist : (r.filename ".tif").toList =
      "DHMV".toList ++ (ver.toList ++ (r.data_type.toList ++ ("RAS".toList ++ (ds
        ++ 'm' :: '_' :: 'k' :: Nat.digitChar (zone / 10) :: Nat.digitChar (zone % 10)
          :: '.' :: 't' :: 'i' :: 'f' :: [])))) := by
    unfold HeightDataImage.filename
    rw [hver, hres, hzz]
    simp only [strToList_append, hasL, hmL, hkL, htifL, hzd]
    simp [List.append_assoc]
  have htail := parseTail_eq ds hne hdig
    (Nat.digitChar (zone / 10)) (Nat.digitChar (zone % 10)) hdA hdB
  have htype := tryTypeHere_at_type r.data_type hdt _ _ _ htail
  have hloop := parseVersionLoop_append ver.toList hv _ _ _ htype []
  unfold DHMVFile.parseName
  rw [hflist, stripLit_append]
  show parseVersionLoop [] (ver.toList ++ (r.data_type.toList ++ _)) = _
  rw [hloop]
  simp only [List.nil_append]
  rw [show (ver.toList).asString = ver from rfl, hzval]

/-- Witness for C10 at the repository's own test reference. -/
theorem c10_witness :
    DHMVFile.parseName (sampleDsm.filename ".tif")
      = some ⟨"II", sampleDsm.data_type, natOfDigits ['5'], 15⟩ :=
  c10_roundtrip 15 "DSM" "II" "./tiff_data" ['5'] sampleDsm (by decide)
    (by decide) (by decide) (by decide) (by decide)

/-- C10 counterexample: a ref whose version token is the single character
2 is validly constructed and satisfies the claim's stated side conditions
(digit-run resolution, two-digit zone), yet its generated name does not
match the DHMVFile pattern at all: parsing fails instead of recovering the
fields. -/
theorem c10_counterexample :
    HeightDataImage.make 15 "DSM" "1m" "2" "./tiff_data" = .ok sampleV2 ∧
    DHMVFile.parseName (sampleV2.filename ".tif") = none :=
  ⟨by decide, by decide⟩

end ThreeDHouses
